import Mathlib

/-!
Verification of the benchmark reconciliation and caching layer of the
`doesjitgobrrr` dashboard.  The definitions below are shallow embeddings of
the TypeScript source: numeric values (`number`) are modelled as exact
rationals (`Rat`), JS `null`/`undefined` as `Option`, objects/`Map`s as
association lists or functions, and the browser `localStorage` as an explicit
store value threaded through the functions that use it.
-/

/-! ## Metric model (frontend/src/types.ts) -/

/-- `BenchmarkResult` from types.ts: `{mean, median, stddev, min_value, max_value}`. -/
structure BenchmarkResult where
  mean : Rat
  median : Rat
  stddev : Rat
  min_value : Rat
  max_value : Rat
deriving DecidableEq

/-- `BenchmarkRun` from types.ts.  `benchmarks` is the
`Record<string, BenchmarkResult>` modelled as an association list in key
insertion order; `directory_name` and `created_at` are the submission key and
submission timestamp. -/
structure BenchmarkRun where
  date : String
  commit : String
  python_version : String
  is_jit : Bool
  machine : String
  directory_name : String
  created_at : String
  geomean : Option Rat
  speedup : Option Rat
  benchmarks : List (String × BenchmarkResult)
deriving DecidableEq

/-- `HistoricalResponse` from types.ts: `{days, machines}` with `machines`
a `Record<string, BenchmarkRun[]>` modelled as an association list. -/
structure HistoricalResponse where
  days : Nat
  machines : List (String × List BenchmarkRun)
deriving DecidableEq

/-- `ComparisonRow` from types.ts. -/
structure ComparisonRow where
  name : String
  nonjit_mean : Option Rat
  jit_mean : Option Rat
  diff : Option Rat
  speedup : Option Rat
deriving DecidableEq

/-! ## Comparator (frontend/src/components/DetailView.tsx, `comparisonData`) -/

/-- Benchmark names of an optional run: `Object.keys(run.benchmarks)` when the
run is present, nothing otherwise. -/
def keysOf : Option BenchmarkRun → List String
  | none => []
  | some r => r.benchmarks.map Prod.fst

/-- One `Set.add`: appends the name unless already present (JS `Set` keeps
first-insertion order). -/
def addKey (l : List String) (x : String) : List String :=
  if x ∈ l then l else l ++ [x]

/-- The `allBenchmarks` set built in `comparisonData`: union of the benchmark
names of both runs, in first-insertion order. -/
def allBenchmarks (nonJit jit : Option BenchmarkRun) : List String :=
  (keysOf nonJit ++ keysOf jit).foldl addKey []

/-- `nonJit?.benchmarks[name]?.mean ?? null`: the mean of a named benchmark,
`none` when the run is absent or the name is not among its benchmarks. -/
def lookupMean (run : Option BenchmarkRun) (name : String) : Option Rat :=
  match run with
  | none => none
  | some r => (r.benchmarks.lookup name).map BenchmarkResult.mean

/-- The row built for one benchmark name in `comparisonData`:
`diff = jitMean - nonJitMean` and `speedup = nonJitMean / jitMean` when both
means are present, both `null` otherwise. -/
def mkRow (nonJit jit : Option BenchmarkRun) (name : String) : ComparisonRow :=
  match lookupMean nonJit name, lookupMean jit name with
  | some a, some c =>
      { name := name, nonjit_mean := some a, jit_mean := some c,
        diff := some (c - a), speedup := some (a / c) }
  | nm, jm =>
      { name := name, nonjit_mean := nm, jit_mean := jm,
        diff := none, speedup := none }

/-- `comparisonData` of DetailView.tsx: one row per name in the union of the
two runs' benchmark names, keeping only rows where both means are present. -/
def comparisonData (nonJit jit : Option BenchmarkRun) : List ComparisonRow :=
  ((allBenchmarks nonJit jit).map (mkRow nonJit jit)).filter
    (fun row => row.nonjit_mean.isSome && row.jit_mean.isSome)

/-! ## Display formatting (frontend/src/utils.ts and BenchmarkTable.tsx) -/

/-- CSS class of a formatted cell (`'faster' | 'slower' | 'neutral'`). -/
inductive CellClass where
  | faster
  | slower
  | neutral
deriving DecidableEq

/-- `SpeedupDisplay` from utils.ts: displayed text plus its class. -/
structure SpeedupDisplay where
  text : String
  className : CellClass
deriving DecidableEq

/-- Left-pad a digit string with zeros to the given length. -/
def padZeros (s : String) (len : Nat) : String :=
  if s.length < len then String.mk (List.replicate (len - s.length) '0') ++ s
  else s

/-- JS `x.toFixed(digits)` for the non-negative values this code displays:
round to `digits` decimal places (half up) and render with exactly that many
fractional digits. -/
def jsToFixed (q : Rat) (digits : Nat) : String :=
  let scale : Int := 10 ^ digits
  let n : Int := ⌊q * (scale : Rat) + 1/2⌋
  if digits = 0 then toString n
  else toString (n / scale) ++ "." ++ padZeros (toString (n % scale)) digits

/-- `parseFloat(q.toFixed(2))`: the value of `q` rounded to two decimal
places (half up). -/
def jsRound2 (q : Rat) : Rat :=
  (⌊q * 100 + 1/2⌋ : Int) / 100

namespace utils

/-- `formatTime` from utils.ts: render a duration in seconds choosing the
unit by magnitude. -/
def formatTime (seconds : Option Rat) : String :=
  match seconds with
  | none => "-"
  | some s =>
    if s < 1/1000000 then jsToFixed (s * 1000000000) 0 ++ " ns"
    else if s < 1/1000 then jsToFixed (s * 1000000) 0 ++ " μs"
    else if s < 1 then
      let ms := s * 1000
      (if 100 ≤ ms then jsToFixed ms 0
       else if 10 ≤ ms then jsToFixed ms 1
       else jsToFixed ms 2) ++ " ms"
    else
      (if 100 ≤ s then jsToFixed s 0
       else if 10 ≤ s then jsToFixed s 1
       else jsToFixed s 2) ++ " s"

/-- `formatSpeedup` from utils.ts: neutral `"1.00x"` when the value rounds
to `1.00`, otherwise `"⟨s⟩x faster"` for `s ≥ 1` and the reciprocal
`"⟨1/s⟩x slower"` for `s < 1`. -/
def formatSpeedup (speedup : Option Rat) : SpeedupDisplay :=
  match speedup with
  | none => { text := "-", className := .neutral }
  | some s =>
    if jsRound2 s = 1 then { text := "1.00x", className := .neutral }
    else if 1 ≤ s then
      { text := jsToFixed s 2 ++ "x faster", className := .faster }
    else
      { text := jsToFixed (1 / s) 2 ++ "x slower", className := .slower }

/-- `formatSpeedupPercent` from utils.ts: neutral `"same speed"` when the
value rounds to `1.00`, otherwise a percent framing. -/
def formatSpeedupPercent (speedup : Option Rat) : SpeedupDisplay :=
  match speedup with
  | none => { text := "-", className := .neutral }
  | some s =>
    if jsRound2 s = 1 then { text := "same speed", className := .neutral }
    else if 1 ≤ s then
      { text := jsToFixed ((s - 1) * 100) 1 ++ "% faster", className := .faster }
    else
      { text := jsToFixed ((1 - s) * 100) 1 ++ "% slower", className := .slower }

end utils

namespace BenchmarkTable

/-- `formatDiff` from BenchmarkTable.tsx: absolute differences below one
nanosecond display as the neutral `"~0 s"`; otherwise faster/slower with the
formatted magnitude. -/
def formatDiff (benchmark : ComparisonRow) : SpeedupDisplay :=
  match benchmark.diff with
  | none => { text := "-", className := .neutral }
  | some d =>
    if |d| < 1/1000000000 then { text := "~0 s", className := .neutral }
    else if d < 0 then
      { text := utils.formatTime (some |d|) ++ " faster", className := .faster }
    else
      { text := utils.formatTime (some d) ++ " slower", className := .slower }

/-- `formatSpeedup` from BenchmarkTable.tsx: same logic as the utils
version, applied to a comparison row. -/
def formatSpeedup (benchmark : ComparisonRow) : SpeedupDisplay :=
  match benchmark.speedup with
  | none => { text := "-", className := .neutral }
  | some s =>
    if jsRound2 s = 1 then { text := "1.00x", className := .neutral }
    else if s < 1 then
      { text := jsToFixed (1 / s) 2 ++ "x slower", className := .slower }
    else
      { text := jsToFixed s 2 ++ "x faster", className := .faster }

end BenchmarkTable

/-! ## Run reconciler (frontend/src/components/PerformanceChart.tsx,
`groupAndDeduplicateByMachine`) -/

/-- A run extended with the pre-parsed date: `ParsedRun` of
PerformanceChart.tsx (`parsedDate` is the epoch value of `new Date(r.date)`,
`dateStr` its ISO calendar day). -/
structure ParsedRun extends BenchmarkRun where
  parsedDate : Int
  dateStr : String
deriving DecidableEq

/-- `run.machine || 'unknown'`: the grouping key used for machines (the empty
string is the only falsy string). -/
def machineKey (r : ParsedRun) : String :=
  if r.machine = "" then "unknown" else r.machine

/-- `run.directory_name || ''`: the submission key compared during
deduplication (`|| ''` is the identity on strings, since only the empty
string is falsy). -/
def dirName (r : ParsedRun) : String :=
  r.directory_name

/-- The body of the deduplication loop of `groupAndDeduplicateByMachine`:
one `runsByDate` update.  The incoming run replaces the stored one at its
`dateStr` key exactly when the slot is empty or the incoming
`directory_name` is strictly greater than the stored one. -/
def dedupStep (runsByDate : String → Option ParsedRun) (run : ParsedRun) :
    String → Option ParsedRun :=
  match runsByDate run.dateStr with
  | none => fun d => if d = run.dateStr then some run else runsByDate d
  | some existing =>
      if dirName existing < dirName run then
        fun d => if d = run.dateStr then some run else runsByDate d
      else runsByDate

/-- The `runsByDate` map built by the deduplication loop of
`groupAndDeduplicateByMachine`: iterate over one machine's runs in list
order, applying `dedupStep` to each. -/
def dedupByDate (machineRuns : List ParsedRun) : String → Option ParsedRun :=
  machineRuns.foldl dedupStep (fun _ => none)

/-- The run `groupAndDeduplicateByMachine` keeps for machine `m` on calendar
day `d`: group the input by `machineKey` (grouping preserves list order) and
read the machine's `runsByDate` map at `d`.  (The function's final step only
sorts each machine's surviving runs by `parsedDate`; it does not change which
run survives for a given day.) -/
def selectedRun (runs : List ParsedRun) (m d : String) : Option ParsedRun :=
  dedupByDate (runs.filter (fun r => machineKey r = m)) d

/-- The candidate runs for the (machine, day) slot: the input runs with that
machine key and that calendar day, in input order. -/
def slotRuns (runs : List ParsedRun) (m d : String) : List ParsedRun :=
  (runs.filter (fun r => machineKey r = m)).filter (fun r => r.dateStr = d)

/-- One comparison step of the deduplication loop, restricted to a single
`dateStr` slot: keep the incoming run exactly when the slot is empty or its
key is strictly greater. -/
def pick (acc : Option ParsedRun) (r : ParsedRun) : Option ParsedRun :=
  match acc with
  | none => some r
  | some existing => if dirName existing < dirName r then some r else some existing

/-! ## Fetch cache (frontend/src/api.ts) -/

/-- What a `localStorage` key can hold, as seen through
`JSON.parse`: a structurally valid `CachedData` record `{data, timestamp}`,
or text whose deserialization fails (`corrupt`). -/
inductive StoredValue where
  | valid (data : HistoricalResponse) (timestamp : Nat)
  | corrupt
deriving DecidableEq

/-- The `localStorage` key/value store. -/
def Store : Type := String → Option StoredValue

/-- `localStorage.removeItem`. -/
def removeItem (store : Store) (key : String) : Store :=
  fun k => if k = key then none else store k

/-- `localStorage.setItem`. -/
def setItem (store : Store) (key : String) (v : StoredValue) : Store :=
  fun k => if k = key then some v else store k

/-- `CACHE_TTL = 5 * 60 * 1000` milliseconds. -/
def CACHE_TTL : Nat := 5 * 60 * 1000

/-- Total run count of a dataset:
`Object.values(machines).reduce((sum, runs) => sum + runs.length, 0)`. -/
def totalRuns (d : HistoricalResponse) : Nat :=
  d.machines.foldl (fun sum mr => sum + mr.2.length) 0

/-- `getCachedData` from api.ts.  Returns the payload served from the cache
(if any) together with the store after the read (the read deletes stale,
empty and undeserializable entries).  Timestamps are epoch milliseconds. -/
def getCachedData (store : Store) (now : Nat) (cacheKey : String) :
    Option HistoricalResponse × Store :=
  match store cacheKey with
  | none => (none, store)
  | some .corrupt => (none, removeItem store cacheKey)
  | some (.valid data timestamp) =>
    if now - timestamp < CACHE_TTL then
      if totalRuns data = 0 then (none, removeItem store cacheKey)
      else (some data, store)
    else (none, removeItem store cacheKey)

/-- `setCachedData` from api.ts.  `writeOk` models whether `setItem`
succeeds; on failure (quota exceeded / storage unavailable) the exception is
caught and the store is left unchanged. -/
def setCachedData (writeOk : Bool) (store : Store) (now : Nat)
    (cacheKey : String) (data : HistoricalResponse) : Store :=
  if writeOk then setItem store cacheKey (.valid data now) else store

/-- Cache key of the summary request:
`CACHE_KEY_SUMMARY_PREFIX + days` with the prefix `historical_summary_cache_`. -/
def summaryKey (days : Nat) : String :=
  "historical_summary_cache_" ++ toString days

/-- Result of one `fetchHistoricalSummary` call: the value returned or the
error thrown, the store afterwards, and whether the network fetcher ran. -/
structure FetchOutcome where
  result : Except String HistoricalResponse
  store : Store
  fetched : Bool

/-- `fetchHistoricalSummary` from api.ts.  `fetchResult` models the outcome
the network fetcher would produce if invoked (`.error` covers a rejected
`fetch` and a non-2xx response). -/
def fetchHistoricalSummary (days : Nat) (forceRefresh : Bool) (store : Store)
    (now : Nat) (writeOk : Bool)
    (fetchResult : Except String HistoricalResponse) : FetchOutcome :=
  let cacheKey := summaryKey days
  let lookup := if forceRefresh then (none, store) else getCachedData store now cacheKey
  match lookup.1 with
  | some cachedData => { result := .ok cachedData, store := lookup.2, fetched := false }
  | none =>
    match fetchResult with
    | .error e => { result := .error e, store := lookup.2, fetched := true }
    | .ok data =>
      { result := .ok data,
        store := setCachedData writeOk lookup.2 now cacheKey data,
        fetched := true }

/-! ## Concrete fixtures used by witnesses and counterexamples -/

/-- A JIT run for machine `M` on day `D` with submission key `a` submitted at
`t1`. -/
def runTieA : ParsedRun :=
  { date := "2025-01-01", commit := "c1", python_version := "3.14", is_jit := true,
    machine := "M", directory_name := "a", created_at := "t1",
    geomean := none, speedup := none, benchmarks := [], parsedDate := 0, dateStr := "D" }

/-- Same machine, day and submission key as `runTieA`, but submitted later
(`created_at = t2`). -/
def runTieB : ParsedRun := { runTieA with created_at := "t2" }

/-- Same machine and day as `runTieA`, with the strictly greater submission
key `b`. -/
def runKeyB : ParsedRun := { runTieA with directory_name := "b" }

/-- A benchmark result with mean 2 seconds. -/
def resNon : BenchmarkResult :=
  { mean := 2, median := 0, stddev := 0, min_value := 0, max_value := 0 }

/-- A benchmark result with mean 1 second. -/
def resJit : BenchmarkResult := { resNon with mean := 1 }

/-- A baseline (interpreter) run with benchmarks `x` and `y`. -/
def runNon : BenchmarkRun :=
  { date := "2025-01-01", commit := "c1", python_version := "3.14", is_jit := false,
    machine := "M", directory_name := "a", created_at := "t1",
    geomean := none, speedup := none,
    benchmarks := [("x", resNon), ("y", resNon)] }

/-- A variant (JIT) run with benchmark `x` only. -/
def runJit : BenchmarkRun :=
  { runNon with is_jit := true, benchmarks := [("x", resJit)] }

/-- A baseline run whose only benchmark `x` has the tiny mean `1e-10`. -/
def runNonTiny : BenchmarkRun :=
  { runNon with benchmarks := [("x", { resNon with mean := 1/10000000000 })] }

/-- A variant run whose only benchmark `x` has mean `4e-10`: the means differ
by less than a nanosecond, yet their ratio is far from 1. -/
def runJitTiny : BenchmarkRun :=
  { runJit with benchmarks := [("x", { resJit with mean := 4/10000000000 })] }

/-- The comparison row `comparisonData` produces for `runNon` and `runJit`:
benchmark `x` with means 2 and 1. -/
def sampleRow : ComparisonRow :=
  { name := "x", nonjit_mean := some 2, jit_mean := some 1,
    diff := some (1 - 2), speedup := some (2 / 1) }

/-- The comparison row `comparisonData` produces for `runNonTiny` and
`runJitTiny`: means `1e-10` and `4e-10`, whose difference is under a
nanosecond while their ratio is 0.25. -/
def tinyRow : ComparisonRow :=
  { name := "x", nonjit_mean := some (1/10000000000), jit_mean := some (4/10000000000),
    diff := some (4/10000000000 - 1/10000000000),
    speedup := some (1/10000000000 / (4/10000000000)) }

/-- A dataset with one run, so its total run count is 1. -/
def sampleData : HistoricalResponse := { days := 1, machines := [("M", [runNon])] }

/-- A dataset with no runs at all. -/
def emptyData : HistoricalResponse := { days := 100, machines := [] }

/-- A store holding `sampleData` under the summary key for `days = 1`,
written at time 0. -/
def storeWithSample : Store :=
  fun k => if k = summaryKey 1 then some (StoredValue.valid sampleData 0) else none

/-- A store whose entry under the summary key for `days = 1` fails to
deserialize. -/
def corruptStore : Store :=
  fun k => if k = summaryKey 1 then some StoredValue.corrupt else none

/-- A store holding the empty dataset under the summary key for
`days = 100`, written at time 0. -/
def emptyEntryStore : Store :=
  fun k => if k = summaryKey 100 then some (StoredValue.valid emptyData 0) else none

/-! ## Lemmas about the deduplication fold -/

theorem pick_isSome (acc : Option ParsedRun) (x : ParsedRun) : ∃ e, pick acc x = some e := by
  cases acc with
  | none => exact ⟨x, rfl⟩
  | some e =>
    unfold pick
    by_cases h : dirName e < dirName x
    · exact ⟨x, by simp [h]⟩
    · exact ⟨e, by simp [h]⟩

theorem pick_mem (acc : Option ParsedRun) (x r : ParsedRun) (h : pick acc x = some r) :
    r = x ∨ acc = some r := by
  cases acc with
  | none => exact Or.inl (Option.some_injective _ h).symm
  | some e =>
    unfold pick at h
    by_cases hlt : dirName e < dirName x
    · simp [hlt] at h
      exact Or.inl h.symm
    · simp [hlt] at h
      exact Or.inr (by rw [h])

theorem dirName_le_pick (acc : Option ParsedRun) (x r : ParsedRun)
    (h : pick acc x = some r) : dirName x ≤ dirName r := by
  cases acc with
  | none =>
    cases (Option.some_injective _ h)
    exact le_refl _
  | some e =>
    unfold pick at h
    by_cases hlt : dirName e < dirName x
    · simp [hlt] at h
      rw [h]
    · simp [hlt] at h
      rw [← h]
      exact le_of_not_lt hlt

theorem pick_acc_le (e : ParsedRun) (x r : ParsedRun)
    (h : pick (some e) x = some r) : dirName e ≤ dirName r := by
  unfold pick at h
  by_cases hlt : dirName e < dirName x
  · simp [hlt] at h
    rw [← h]
    exact le_of_lt hlt
  · simp [hlt] at h
    rw [h]

theorem foldl_pick_spec (l : List ParsedRun) :
    ∀ (acc : Option ParsedRun) (r : ParsedRun), l.foldl pick acc = some r →
      (acc = some r ∨ r ∈ l) ∧ (∀ x ∈ l, dirName x ≤ dirName r) ∧
      (∀ e, acc = some e → dirName e ≤ dirName r) := by
  induction l with
  | nil =>
    intro acc r h
    simp only [List.foldl_nil] at h
    refine ⟨Or.inl h, by simp, fun e he => ?_⟩
    rw [h] at he
    cases he
    exact le_refl _
  | cons x t ih =>
    intro acc r h
    simp only [List.foldl_cons] at h
    obtain ⟨e0, he0⟩ := pick_isSome acc x
    rw [he0] at h
    obtain ⟨hmem, hbound, haccb⟩ := ih _ r h
    have hx : dirName x ≤ dirName r :=
      le_trans (dirName_le_pick acc x e0 he0) (haccb e0 rfl)
    refine ⟨?_, ?_, ?_⟩
    · rcases hmem with hm | hm
      · obtain rfl : e0 = r := Option.some_injective _ hm
        rcases pick_mem acc x e0 he0 with h1 | h1
        · exact Or.inr (by rw [h1]; exact List.mem_cons_self x t)
        · exact Or.inl h1
      · exact Or.inr (List.mem_cons_of_mem x hm)
    · intro y hy
      rcases List.mem_cons.mp hy with hy | hy
      · rw [hy]; exact hx
      · exact hbound y hy
    · intro e he
      rw [he] at he0
      exact le_trans (pick_acc_le e x e0 he0) (haccb e0 rfl)

theorem dedupStep_apply (f : String → Option ParsedRun) (run : ParsedRun) (d : String) :
    dedupStep f run d = if d = run.dateStr then pick (f run.dateStr) run else f d := by
  unfold dedupStep pick
  cases hf : f run.dateStr with
  | none =>
    by_cases hd : d = run.dateStr
    · simp [hd]
    · simp [hd]
  | some e =>
    by_cases hlt : dirName e < dirName run
    · simp [hlt]
    · by_cases hd : d = run.dateStr
      · simp [hlt, hd, hf]
      · simp [hlt, hd]

theorem foldl_dedupStep_apply (l : List ParsedRun) :
    ∀ (f : String → Option ParsedRun) (d : String),
      (l.foldl dedupStep f) d = (l.filter (fun r => r.dateStr = d)).foldl pick (f d) := by
  induction l with
  | nil => intro f d; rfl
  | cons x t ih =>
    intro f d
    simp only [List.foldl_cons]
    rw [ih (dedupStep f x) d, dedupStep_apply]
    by_cases hd : x.dateStr = d
    · rw [if_pos hd.symm, hd]
      have hfx : List.filter (fun r => decide (r.dateStr = d)) (x :: t) =
          x :: List.filter (fun r => decide (r.dateStr = d)) t := by
        simp [List.filter_cons, hd]
      rw [hfx, List.foldl_cons]
    · rw [if_neg (fun hc => hd hc.symm)]
      have hfx : List.filter (fun r => decide (r.dateStr = d)) (x :: t) =
          List.filter (fun r => decide (r.dateStr = d)) t := by
        simp [List.filter_cons, hd]
      rw [hfx]

theorem selectedRun_eq_foldl_pick (runs : List ParsedRun) (m d : String) :
    selectedRun runs m d = (slotRuns runs m d).foldl pick none := by
  unfold selectedRun dedupByDate slotRuns
  exact foldl_dedupStep_apply _ _ d

theorem selectedRun_pair (r1 r2 : ParsedRun) (m d : String)
    (h1 : machineKey r1 = m) (h2 : r1.dateStr = d)
    (h3 : machineKey r2 = m) (h4 : r2.dateStr = d) :
    selectedRun [r1, r2] m d = pick (some r1) r2 := by
  rw [selectedRun_eq_foldl_pick]
  unfold slotRuns
  simp [h1, h2, h3, h4, List.filter_cons, pick]

theorem pick_of_lt (e x : ParsedRun) (h : dirName e < dirName x) :
    pick (some e) x = some x := by
  unfold pick
  simp [h]

theorem pick_of_not_lt (e x : ParsedRun) (h : ¬ dirName e < dirName x) :
    pick (some e) x = some e := by
  unfold pick
  simp [h]

theorem str_a_lt_b : ("a" : String) < "b" := by
  rw [String.lt_iff_toList_lt]
  decide

/-- Claim C1 (corrected).  For every input run collection, the run the
reconciler keeps for a (machine, day) slot is a candidate of that slot whose
submission key (`directory_name`) is greater than or equal to every
candidate's; for a pair of candidates the one with the strictly greater
submission key is selected independently of input order.  But on an exact
submission-key tie the run listed first is kept: `submittedAt`
(`created_at`) is never consulted, so tied selections depend on the input
order (see the counterexample). -/
theorem C1_thm (runs : List ParsedRun) (m d : String) :
    (∀ r, selectedRun runs m d = some r →
        r ∈ slotRuns runs m d ∧ ∀ x ∈ slotRuns runs m d, dirName x ≤ dirName r) ∧
    (∀ r1 r2 : ParsedRun, machineKey r1 = m → r1.dateStr = d →
        machineKey r2 = m → r2.dateStr = d →
        (dirName r1 < dirName r2 →
            selectedRun [r1, r2] m d = some r2 ∧ selectedRun [r2, r1] m d = some r2) ∧
        (dirName r1 = dirName r2 → selectedRun [r1, r2] m d = some r1)) := by
  constructor
  · intro r h
    rw [selectedRun_eq_foldl_pick] at h
    obtain ⟨hmem, hbound, _⟩ := foldl_pick_spec _ none r h
    rcases hmem with hm | hm
    · exact Option.noConfusion hm
    · exact ⟨hm, hbound⟩
  · intro r1 r2 h1 h2 h3 h4
    constructor
    · intro hlt
      refine ⟨?_, ?_⟩
      · rw [selectedRun_pair r1 r2 m d h1 h2 h3 h4]
        exact pick_of_lt _ _ hlt
      · rw [selectedRun_pair r2 r1 m d h3 h4 h1 h2]
        exact pick_of_not_lt _ _ (lt_asymm hlt)
    · intro heq
      rw [selectedRun_pair r1 r2 m d h1 h2 h3 h4]
      exact pick_of_not_lt _ _ (by rw [heq]; exact lt_irrefl _)

/-- Claim C1 counterexample.  `runTieA` and `runTieB` are candidate runs for
the same machine `M`, day `D`, with the same submission key `a`, differing
only in `created_at` (`t1` vs `t2`).  The reconciler keeps whichever run is
listed first: the selection depends on the input order, and on the order
`[runTieA, runTieB]` it keeps the run with the smaller `created_at` — against
both the greater-`submittedAt` tie-break and the order independence the
claim states. -/
theorem C1_counterexample :
    selectedRun [runTieA, runTieB] "M" "D" = some runTieA ∧
    selectedRun [runTieB, runTieA] "M" "D" = some runTieB ∧
    runTieA ≠ runTieB ∧
    runTieA.created_at = "t1" ∧ runTieB.created_at = "t2" ∧
    dirName runTieA = dirName runTieB := by
  refine ⟨?_, ?_, by decide, rfl, rfl, rfl⟩
  · rw [selectedRun_pair runTieA runTieB "M" "D" rfl rfl rfl rfl]
    exact pick_of_not_lt _ _ (lt_irrefl _)
  · rw [selectedRun_pair runTieB runTieA "M" "D" rfl rfl rfl rfl]
    exact pick_of_not_lt _ _ (lt_irrefl _)

/-- Claim C1 witness: the amended statement at the concrete pair
(`runTieA`, `runKeyB`) with distinct submission keys `a < b`, and at the
tied pair (`runTieA`, `runTieB`). -/
theorem C1_witness :
    dirName runTieA < dirName runKeyB ∧
    selectedRun [runTieA, runKeyB] "M" "D" = some runKeyB ∧
    selectedRun [runKeyB, runTieA] "M" "D" = some runKeyB ∧
    selectedRun [runTieA, runTieB] "M" "D" = some runTieA ∧
    runKeyB ∈ slotRuns [runTieA, runKeyB] "M" "D" := by
  have hab : dirName runTieA < dirName runKeyB := str_a_lt_b
  have hpair := (C1_thm [runTieA, runKeyB] "M" "D").2 runTieA runKeyB rfl rfl rfl rfl
  have htie := (C1_thm [runTieA, runTieB] "M" "D").2 runTieA runTieB rfl rfl rfl rfl
  have hsel := (hpair.1 hab).1
  exact ⟨hab, hsel, (hpair.1 hab).2, htie.2 rfl,
    ((C1_thm [runTieA, runKeyB] "M" "D").1 runKeyB hsel).1⟩

/-! ## Lemmas about the comparator -/

theorem mem_foldl_addKey (l : List String) :
    ∀ (acc : List String) (x : String), x ∈ l.foldl addKey acc ↔ x ∈ acc ∨ x ∈ l := by
  induction l with
  | nil => simp
  | cons a t ih =>
    intro acc x
    simp only [List.foldl_cons]
    rw [ih]
    unfold addKey
    by_cases h : a ∈ acc
    · rw [if_pos h]
      simp only [List.mem_cons]
      constructor
      · tauto
      · rintro (hx | rfl | hx) <;> tauto
    · rw [if_neg h]
      simp only [List.mem_append, List.mem_singleton, List.mem_cons]
      tauto

theorem nodup_foldl_addKey (l : List String) :
    ∀ acc : List String, acc.Nodup → (l.foldl addKey acc).Nodup := by
  induction l with
  | nil => intro acc h; exact h
  | cons a t ih =>
    intro acc h
    simp only [List.foldl_cons]
    apply ih
    unfold addKey
    by_cases ha : a ∈ acc
    · rw [if_pos ha]; exact h
    · rw [if_neg ha]
      rw [List.nodup_append]
      exact ⟨h, List.nodup_singleton a, by simp [List.disjoint_singleton, ha]⟩

theorem allBenchmarks_nodup (b v : Option BenchmarkRun) : (allBenchmarks b v).Nodup :=
  nodup_foldl_addKey _ _ List.nodup_nil

theorem mem_allBenchmarks (b v : Option BenchmarkRun) (x : String) :
    x ∈ allBenchmarks b v ↔ x ∈ keysOf b ∨ x ∈ keysOf v := by
  unfold allBenchmarks
  rw [mem_foldl_addKey]
  simp [List.mem_append]

theorem lookup_isSome_mem {β : Type} (l : List (String × β)) (a : String)
    (h : (l.lookup a).isSome = true) : a ∈ l.map Prod.fst := by
  induction l with
  | nil => simp [List.lookup] at h
  | cons p t ih =>
    obtain ⟨k, v⟩ := p
    by_cases hak : a = k
    · simp [hak]
    · have hb : (a == k) = false := beq_eq_false_iff_ne.mpr hak
      simp only [List.lookup, hb] at h
      simp only [List.map_cons, List.mem_cons]
      exact Or.inr (ih h)

theorem lookup_eq_none_of_not_mem {β : Type} (l : List (String × β)) (a : String)
    (h : a ∉ l.map Prod.fst) : l.lookup a = none := by
  induction l with
  | nil => rfl
  | cons p t ih =>
    obtain ⟨k, v⟩ := p
    simp only [List.map_cons, List.mem_cons, not_or] at h
    have hb : (a == k) = false := beq_eq_false_iff_ne.mpr h.1
    simp only [List.lookup, hb]
    exact ih h.2

theorem countP_beq_of_nodup (l : List String) (name : String) (q : String → Bool)
    (hl : l.Nodup) :
    l.countP (fun nm => (nm == name) && q nm) =
      if name ∈ l ∧ q name = true then 1 else 0 := by
  induction l with
  | nil => simp
  | cons a t ih =>
    have ht : t.Nodup := hl.of_cons
    have ha : a ∉ t := (List.nodup_cons.mp hl).1
    rw [List.countP_cons, ih ht]
    by_cases han : a = name
    · subst han
      simp [ha, List.mem_cons]
    · have h1 : (a == name) = false := beq_eq_false_iff_ne.mpr han
      have h2 : (name ∈ a :: t) ↔ name ∈ t := by
        simp only [List.mem_cons, or_iff_right_iff_imp]
        intro hc
        exact absurd hc.symm han
      rw [h1]
      simp [h2]

theorem mkRow_name (b v : Option BenchmarkRun) (nm : String) : (mkRow b v nm).name = nm := by
  unfold mkRow
  cases h1 : lookupMean b nm <;> cases h2 : lookupMean v nm <;> rfl

theorem mkRow_nonjit (b v : Option BenchmarkRun) (nm : String) :
    (mkRow b v nm).nonjit_mean = lookupMean b nm := by
  unfold mkRow
  cases h1 : lookupMean b nm <;> cases h2 : lookupMean v nm <;> rfl

theorem mkRow_jit (b v : Option BenchmarkRun) (nm : String) :
    (mkRow b v nm).jit_mean = lookupMean v nm := by
  unfold mkRow
  cases h1 : lookupMean b nm <;> cases h2 : lookupMean v nm <;> rfl

/-- Claim C2 (confirmed).  `comparisonData` emits exactly one row per
benchmark name whose mean is present in both runs and none for a name
present in only one run; and an absent benchmark's mean is looked up as
`none`, never zero. -/
theorem C2_thm (nonJit jit : Option BenchmarkRun) (name : String) :
    ((comparisonData nonJit jit).countP (fun row => row.name == name) =
      if (lookupMean nonJit name).isSome ∧ (lookupMean jit name).isSome then 1 else 0) ∧
    (∀ r : BenchmarkRun, name ∉ r.benchmarks.map Prod.fst →
      lookupMean (some r) name = none) := by
  constructor
  · unfold comparisonData
    rw [List.countP_filter, List.countP_map]
    rw [List.countP_congr (q := fun nm =>
      (nm == name) && ((lookupMean nonJit nm).isSome && (lookupMean jit nm).isSome))
      (fun nm _ => by
        simp only [Function.comp, mkRow_name, mkRow_nonjit, mkRow_jit])]
    rw [countP_beq_of_nodup _ _ _ (allBenchmarks_nodup nonJit jit)]
    have hiff : (name ∈ allBenchmarks nonJit jit ∧
        ((lookupMean nonJit name).isSome && (lookupMean jit name).isSome) = true) ↔
        ((lookupMean nonJit name).isSome ∧ (lookupMean jit name).isSome) := by
      constructor
      · rintro ⟨-, hq⟩
        simpa using hq
      · rintro ⟨h1, h2⟩
        refine ⟨?_, by simp [h1, h2]⟩
        rw [mem_allBenchmarks]
        cases nonJit with
        | none => simp [lookupMean] at h1
        | some r =>
          refine Or.inl ?_
          unfold keysOf
          apply lookup_isSome_mem
          simpa [lookupMean, Option.isSome_map] using h1
      
    rw [if_congr hiff rfl rfl]
  · intro r h
    simp only [lookupMean]
    rw [lookup_eq_none_of_not_mem _ _ h]
    rfl

/-- Claim C2 witness: for the concrete runs `runNon` (benchmarks `x`, `y`)
and `runJit` (benchmark `x` only), the comparator emits exactly one row
named `x` and no row named `y`, and the lookup of `y` in `runJit` is
`none`. -/
theorem C2_witness :
    (comparisonData (some runNon) (some runJit)).countP (fun row => row.name == "x") = 1 ∧
    (comparisonData (some runNon) (some runJit)).countP (fun row => row.name == "y") = 0 ∧
    lookupMean (some runJit) "y" = none :=
  ⟨(C2_thm (some runNon) (some runJit) "x").1.trans (by decide),
   (C2_thm (some runNon) (some runJit) "y").1.trans (by decide),
   (C2_thm (some runNon) (some runJit) "y").2 runJit (by decide)⟩

/-- Claim C8 (confirmed).  Every row emitted by `comparisonData` has both
means present, with `diff = jitMean - nonJitMean` and
`speedup = nonJitMean / jitMean`; in particular `diff` and `speedup` are
both non-null together (and in an unemitted row both are null by
construction of `mkRow`). -/
theorem C8_thm (nonJit jit : Option BenchmarkRun) (row : ComparisonRow)
    (h : row ∈ comparisonData nonJit jit) :
    ∃ a c, row.nonjit_mean = some a ∧ row.jit_mean = some c ∧
      row.diff = some (c - a) ∧ row.speedup = some (a / c) := by
  unfold comparisonData at h
  rw [List.mem_filter] at h
  obtain ⟨hmem, hkeep⟩ := h
  rw [List.mem_map] at hmem
  obtain ⟨nm, -, hrow⟩ := hmem
  subst hrow
  rw [Bool.and_eq_true_iff] at hkeep
  obtain ⟨hb, hv⟩ := hkeep
  rw [mkRow_nonjit] at hb
  rw [mkRow_jit] at hv
  obtain ⟨a, ha⟩ := Option.isSome_iff_exists.mp hb
  obtain ⟨c, hc⟩ := Option.isSome_iff_exists.mp hv
  refine ⟨a, c, ?_⟩
  unfold mkRow
  rw [ha, hc]
  exact ⟨rfl, rfl, rfl, rfl⟩

/-- Claim C8 witness: the single row the comparator emits for `runNon` and
`runJit` (means 2 and 1) carries `diff = 1 - 2` and `speedup = 2 / 1`. -/
theorem C8_witness :
    sampleRow ∈ comparisonData (some runNon) (some runJit) ∧
    ∃ a c, sampleRow.nonjit_mean = some a ∧ sampleRow.jit_mean = some c ∧
      sampleRow.diff = some (c - a) ∧ sampleRow.speedup = some (a / c) :=
  have hmem : sampleRow ∈ comparisonData (some runNon) (some runJit) :=
    List.mem_cons_self _ _
  ⟨hmem, C8_thm (some runNon) (some runJit) _ hmem⟩

/-- Claim C5 (corrected, holding part).  The Difference cell applies the
`1e-9` epsilon: a row whose `diff` has absolute value below one nanosecond is
displayed as the neutral `~0 s`.  (The Speedup cell does not consult the
epsilon — see the counterexample.) -/
theorem C5_thm (row : ComparisonRow) (d : Rat) (hd : row.diff = some d)
    (hsmall : |d| < 1/1000000000) :
    BenchmarkTable.formatDiff row = { text := "~0 s", className := CellClass.neutral } := by
  simp only [BenchmarkTable.formatDiff, hd]
  rw [if_pos hsmall]

/-- Claim C5 counterexample.  For means `1e-10` (interpreter) and `4e-10`
(JIT) the row's absolute difference `3e-10` is below the epsilon and the
Difference cell is neutral, yet the Speedup cell reports a slowdown (class
`slower`), because `formatSpeedup` ignores the epsilon: the row is not
presented as exactly neutral. -/
theorem C5_counterexample :
    comparisonData (some runNonTiny) (some runJitTiny) = [tinyRow] ∧
    tinyRow.diff = some (4/10000000000 - 1/10000000000) ∧
    |(4:Rat)/10000000000 - 1/10000000000| < 1/1000000000 ∧
    (BenchmarkTable.formatDiff tinyRow).className = CellClass.neutral ∧
    (BenchmarkTable.formatSpeedup tinyRow).className = CellClass.slower := by
  have habs : |(4:Rat)/10000000000 - 1/10000000000| < 1/1000000000 := by
    rw [abs_of_pos (by norm_num)]
    norm_num
  refine ⟨rfl, rfl, habs, ?_, ?_⟩
  · simp only [BenchmarkTable.formatDiff, tinyRow]
    rw [if_pos habs]
  · simp only [BenchmarkTable.formatSpeedup, tinyRow]
    rw [if_neg (by norm_num [jsRound2]), if_pos (by norm_num)]

/-- Claim C5 witness: the epsilon rule applied to the concrete row
`tinyRow`, whose difference `3e-10` is below one nanosecond. -/
theorem C5_witness :
    tinyRow.diff = some (4/10000000000 - 1/10000000000) ∧
    |(4:Rat)/10000000000 - 1/10000000000| < 1/1000000000 ∧
    BenchmarkTable.formatDiff tinyRow = { text := "~0 s", className := CellClass.neutral } :=
  ⟨rfl, by rw [abs_of_pos (by norm_num)]; norm_num,
   C5_thm tinyRow _ rfl (by rw [abs_of_pos (by norm_num)]; norm_num)⟩

/-- Claim C6 (corrected).  A non-null speedup that rounds to `1.00` is
reported as neutral regardless of whether the unrounded value lies above or
below 1 — but `formatSpeedup` prints the neutral text `"1.00x"`, while it is
`formatSpeedupPercent` that prints `"same speed"`. -/
theorem C6_thm (s : Rat) (hr : jsRound2 s = 1) :
    utils.formatSpeedup (some s) = { text := "1.00x", className := CellClass.neutral } ∧
    utils.formatSpeedupPercent (some s) =
      { text := "same speed", className := CellClass.neutral } ∧
    ∀ row : ComparisonRow, row.speedup = some s →
      BenchmarkTable.formatSpeedup row =
        { text := "1.00x", className := CellClass.neutral } := by
  refine ⟨?_, ?_, ?_⟩
  · simp only [utils.formatSpeedup]
    rw [if_pos hr]
  · simp only [utils.formatSpeedupPercent]
    rw [if_pos hr]
  · intro row hrow
    simp only [BenchmarkTable.formatSpeedup, hrow]
    rw [if_pos hr]

/-- Claim C6 counterexample.  At speedup `1.004` (which rounds to `1.00`)
`formatSpeedup` returns the text `"1.00x"`, not the claimed `"same speed"`
(that text belongs to `formatSpeedupPercent`). -/
theorem C6_counterexample :
    jsRound2 (1004/1000) = 1 ∧
    (utils.formatSpeedup (some (1004/1000))).text = "1.00x" ∧
    (utils.formatSpeedup (some (1004/1000))).text ≠ "same speed" := by
  have hr : jsRound2 ((1004:Rat)/1000) = 1 := by norm_num [jsRound2]
  have h1 : utils.formatSpeedup (some ((1004:Rat)/1000)) =
      { text := "1.00x", className := CellClass.neutral } := by
    simp only [utils.formatSpeedup]
    rw [if_pos hr]
  exact ⟨hr, by rw [h1], by rw [h1]; decide⟩

/-- Claim C6 witness: the amended statement at the concrete speedup
`0.999`, which lies below 1 and rounds to `1.00`. -/
theorem C6_witness :
    (999:Rat)/1000 < 1 ∧ jsRound2 ((999:Rat)/1000) = 1 ∧
    utils.formatSpeedup (some ((999:Rat)/1000)) =
      { text := "1.00x", className := CellClass.neutral } ∧
    utils.formatSpeedupPercent (some ((999:Rat)/1000)) =
      { text := "same speed", className := CellClass.neutral } :=
  ⟨by norm_num, by norm_num [jsRound2],
   (C6_thm ((999:Rat)/1000) (by norm_num [jsRound2])).1,
   (C6_thm ((999:Rat)/1000) (by norm_num [jsRound2])).2.1⟩

/-- Claim C7 (confirmed).  A positive speedup strictly below 1 that does not
round to `1.00` is reported as a slowdown built from the reciprocal
`1/speedup`; the reciprocal exceeds 1, and so does its value rounded to two
decimals — a sub-1.0 fraction is never displayed. -/
theorem C7_thm (s : Rat) (h0 : 0 < s) (h1 : s < 1) (hr : jsRound2 s ≠ 1) :
    utils.formatSpeedup (some s) =
      { text := jsToFixed (1 / s) 2 ++ "x slower", className := CellClass.slower } ∧
    (∀ row : ComparisonRow, row.speedup = some s →
      BenchmarkTable.formatSpeedup row =
        { text := jsToFixed (1 / s) 2 ++ "x slower", className := CellClass.slower }) ∧
    1 < 1 / s ∧ 1 ≤ jsRound2 (1 / s) := by
  have hinv : 1 < 1 / s := one_lt_one_div h0 h1
  refine ⟨?_, ?_, hinv, ?_⟩
  · simp only [utils.formatSpeedup]
    rw [if_neg hr, if_neg (not_le.mpr h1)]
  · intro row hrow
    simp only [BenchmarkTable.formatSpeedup, hrow]
    rw [if_neg hr, if_pos h1]
  · unfold jsRound2
    rw [le_div_iff₀ (by norm_num : (0:Rat) < 100)]
    have h100 : (100:Int) ≤ ⌊1 / s * 100 + 1/2⌋ := by
      apply Int.le_floor.mpr
      push_cast
      linarith [hinv]
    calc (1:Rat) * 100 = ((100:Int):Rat) := by norm_num
      _ ≤ ((⌊1 / s * 100 + 1/2⌋ : Int) : Rat) := by exact_mod_cast h100

/-- Claim C7 witness: the reciprocal rule at the concrete speedup `0.5`. -/
theorem C7_witness :
    (0:Rat) < 1/2 ∧ (1:Rat)/2 < 1 ∧ jsRound2 ((1:Rat)/2) ≠ 1 ∧
    utils.formatSpeedup (some ((1:Rat)/2)) =
      { text := jsToFixed (1 / ((1:Rat)/2)) 2 ++ "x slower", className := CellClass.slower } ∧
    1 < 1 / ((1:Rat)/2) :=
  ⟨by norm_num, by norm_num, by norm_num [jsRound2],
   (C7_thm (1/2) (by norm_num) (by norm_num) (by norm_num [jsRound2])).1,
   (C7_thm (1/2) (by norm_num) (by norm_num) (by norm_num [jsRound2])).2.2.1⟩

/-! ## Cache claims -/

/-- Claim C3 (corrected).  Writing a payload that contains at least one run
and immediately reading the same key within the TTL returns the identical
payload, and the surrounding fetch serves it without invoking the fetcher.
(The nonemptiness condition is forced: see the counterexample with an empty
payload.) -/
theorem C3_thm (store : Store) (days t now : Nat) (data : HistoricalResponse)
    (writeOk : Bool) (fr : Except String HistoricalResponse)
    (hfresh : now - t < CACHE_TTL) (hne : totalRuns data ≠ 0) :
    (getCachedData (setCachedData true store t (summaryKey days) data) now (summaryKey days)).1
      = some data ∧
    (fetchHistoricalSummary days false (setCachedData true store t (summaryKey days) data)
        now writeOk fr).result = .ok data ∧
    (fetchHistoricalSummary days false (setCachedData true store t (summaryKey days) data)
        now writeOk fr).fetched = false := by
  have hset : (setCachedData true store t (summaryKey days) data) (summaryKey days) =
      some (StoredValue.valid data t) := by
    unfold setCachedData setItem
    simp
  have hget : getCachedData (setCachedData true store t (summaryKey days) data) now
      (summaryKey days) =
      (some data, setCachedData true store t (summaryKey days) data) := by
    simp [getCachedData, hset, hfresh, hne]
  refine ⟨by rw [hget], ?_, ?_⟩ <;> simp [fetchHistoricalSummary, hget]

/-- Claim C3 counterexample.  The empty dataset, once written, is not
returned by an immediate read at the same instant: the read deletes it and
the surrounding fetch invokes the fetcher. -/
theorem C3_counterexample :
    (getCachedData (setCachedData true (fun _ => none) 0 (summaryKey 100) emptyData) 0
        (summaryKey 100)).1 = none ∧
    (fetchHistoricalSummary 100 false
        (setCachedData true (fun _ => none) 0 (summaryKey 100) emptyData) 0 true
        (.ok emptyData)).fetched = true :=
  ⟨by decide, by decide⟩

/-- Claim C3 witness: the amended round trip at the concrete nonempty
dataset `sampleData`, written and read at time 0. -/
theorem C3_witness :
    (0:Nat) - 0 < CACHE_TTL ∧ totalRuns sampleData ≠ 0 ∧
    (getCachedData (setCachedData true (fun _ => none) 0 (summaryKey 1) sampleData) 0
        (summaryKey 1)).1 = some sampleData ∧
    (fetchHistoricalSummary 1 false
        (setCachedData true (fun _ => none) 0 (summaryKey 1) sampleData) 0 true
        (.error "x")).fetched = false :=
  have h := C3_thm (fun _ => none) 1 0 0 sampleData true (.error "x") (by decide) (by decide)
  ⟨by decide, by decide, h.1, h.2.2⟩

/-- Claim C4 (confirmed).  A cached entry whose age has reached the TTL is
never returned: the read yields nothing and deletes the entry, the
surrounding fetch invokes the fetcher, and a fetcher failure is propagated —
the stale payload is not served as a fallback. -/
theorem C4_thm (store : Store) (now ts days : Nat) (data : HistoricalResponse)
    (writeOk : Bool) (e : String)
    (hstore : store (summaryKey days) = some (StoredValue.valid data ts))
    (hexp : CACHE_TTL ≤ now - ts) :
    (getCachedData store now (summaryKey days)).1 = none ∧
    (getCachedData store now (summaryKey days)).2 (summaryKey days) = none ∧
    (fetchHistoricalSummary days false store now writeOk (.error e)).result = .error e ∧
    (fetchHistoricalSummary days false store now writeOk (.error e)).fetched = true := by
  have hget : getCachedData store now (summaryKey days) =
      (none, removeItem store (summaryKey days)) := by
    simp [getCachedData, hstore, not_lt.mpr hexp]
  refine ⟨by rw [hget], ?_, ?_, ?_⟩
  · rw [hget]
    simp [removeItem]
  · simp [fetchHistoricalSummary, hget]
  · simp [fetchHistoricalSummary, hget]

/-- Claim C4 witness: a store whose entry was written at time 0, read at
time `CACHE_TTL` (age exactly the TTL) with a failing fetcher. -/
theorem C4_witness :
    storeWithSample (summaryKey 1) = some (StoredValue.valid sampleData 0) ∧
    CACHE_TTL ≤ CACHE_TTL - 0 ∧
    (getCachedData storeWithSample CACHE_TTL (summaryKey 1)).1 = none ∧
    (fetchHistoricalSummary 1 false storeWithSample CACHE_TTL true
        (.error "Failed to fetch data")).result = .error "Failed to fetch data" :=
  have h := C4_thm storeWithSample CACHE_TTL 0 1 sampleData true "Failed to fetch data"
    rfl (by decide)
  ⟨rfl, by decide, h.1, h.2.2.1⟩

/-- Claim C9 (confirmed).  Cache-layer errors never reach the caller: an
undeserializable entry is deleted and the request falls through to a fresh
fetch whose outcome — success or failure — is exactly what a fetch with no
cache would return; and a failed cache write is swallowed, leaving the store
untouched and the fetcher's outcome as the result. -/
theorem C9_thm (days now : Nat) (store : Store) (fr : Except String HistoricalResponse) :
    (∀ writeOk : Bool, store (summaryKey days) = some StoredValue.corrupt →
      (getCachedData store now (summaryKey days)).1 = none ∧
      (getCachedData store now (summaryKey days)).2 (summaryKey days) = none ∧
      (fetchHistoricalSummary days false store now writeOk fr).result = fr ∧
      (fetchHistoricalSummary days false store now writeOk fr).fetched = true ∧
      (fetchHistoricalSummary days false store now writeOk fr).result =
        (fetchHistoricalSummary days false (fun _ => none) now writeOk fr).result) ∧
    (store (summaryKey days) = none →
      (fetchHistoricalSummary days false store now false fr).result = fr ∧
      (fetchHistoricalSummary days false store now false fr).fetched = true ∧
      ∀ k, (fetchHistoricalSummary days false store now false fr).store k = store k) := by
  constructor
  · intro writeOk hc
    have hget : getCachedData store now (summaryKey days) =
        (none, removeItem store (summaryKey days)) := by
      simp [getCachedData, hc]
    have hget2 : getCachedData (fun _ => none : Store) now (summaryKey days) =
        (none, (fun _ => none : Store)) := by
      simp [getCachedData]
    refine ⟨by rw [hget], by rw [hget]; simp [removeItem], ?_, ?_, ?_⟩ <;>
      cases fr <;> simp [fetchHistoricalSummary, hget, hget2]
  · intro hm
    have hget : getCachedData store now (summaryKey days) = (none, store) := by
      simp [getCachedData, hm]
    refine ⟨?_, ?_, ?_⟩ <;>
      cases fr <;> simp [fetchHistoricalSummary, hget, setCachedData]

/-- Claim C9 witness: a corrupt entry falls through to a successful fetch,
and with a failing store the fetch result is still served. -/
theorem C9_witness :
    corruptStore (summaryKey 1) = some StoredValue.corrupt ∧
    (fetchHistoricalSummary 1 false corruptStore 0 true (.ok sampleData)).result
      = .ok sampleData ∧
    (fetchHistoricalSummary 1 false corruptStore 0 true (.ok sampleData)).fetched = true ∧
    (fetchHistoricalSummary 1 false (fun _ => none) 0 false (.ok sampleData)).result
      = .ok sampleData :=
  have h := (C9_thm 1 0 corruptStore (.ok sampleData)).1 true rfl
  have h2 := (C9_thm 1 0 (fun _ => none) (.ok sampleData)).2 rfl
  ⟨rfl, h.2.2.1, h.2.2.2.1, h2.1⟩

/-- Claim C10 (confirmed).  A dataset served from the cache always contains
at least one run; a within-TTL cached entry with zero total runs is deleted
and the read returns nothing, so the fetch refetches; and a successfully
fetched empty dataset is both returned to the caller and written to the
store — emptiness is enforced only on the cache read path. -/
theorem C10_thm (store : Store) (now ts days : Nat) (data d0 : HistoricalResponse) :
    (∀ r, (getCachedData store now (summaryKey days)).1 = some r → 0 < totalRuns r) ∧
    (store (summaryKey days) = some (StoredValue.valid data ts) → now - ts < CACHE_TTL →
      totalRuns data = 0 →
      (getCachedData store now (summaryKey days)).1 = none ∧
      (getCachedData store now (summaryKey days)).2 (summaryKey days) = none ∧
      (fetchHistoricalSummary days false store now true (.ok d0)).fetched = true) ∧
    (store (summaryKey days) = none → totalRuns d0 = 0 →
      (fetchHistoricalSummary days false store now true (.ok d0)).result = .ok d0 ∧
      (fetchHistoricalSummary days false store now true (.ok d0)).store (summaryKey days) =
        some (StoredValue.valid d0 now)) := by
  refine ⟨?_, ?_, ?_⟩
  · intro r h
    rcases hs : store (summaryKey days) with _ | sv
    · simp [getCachedData, hs] at h
    · cases sv with
      | corrupt => simp [getCachedData, hs] at h
      | valid data' ts' =>
        by_cases hfr : now - ts' < CACHE_TTL
        · by_cases hz : totalRuns data' = 0
          · simp [getCachedData, hs, hfr, hz] at h
          · have hdr : data' = r := by
              have := h
              simp [getCachedData, hs, hfr, hz] at this
              exact this
            rw [← hdr]
            exact Nat.pos_of_ne_zero hz
        · simp [getCachedData, hs, hfr] at h
  · intro hs hfr hz
    have hget : getCachedData store now (summaryKey days) =
        (none, removeItem store (summaryKey days)) := by
      simp [getCachedData, hs, hfr, hz]
    refine ⟨by rw [hget], by rw [hget]; simp [removeItem], ?_⟩
    simp [fetchHistoricalSummary, hget]
  · intro hs hz
    have hget : getCachedData store now (summaryKey days) = (none, store) := by
      simp [getCachedData, hs]
    constructor
    · simp [fetchHistoricalSummary, hget]
    · simp [fetchHistoricalSummary, hget, setCachedData, setItem]

/-- Claim C10 witness: an empty within-TTL entry is deleted and refetched;
a fetched empty dataset is returned and written; a fresh nonempty entry is
served and indeed nonempty. -/
theorem C10_witness :
    emptyEntryStore (summaryKey 100) = some (StoredValue.valid emptyData 0) ∧
    totalRuns emptyData = 0 ∧
    (getCachedData emptyEntryStore 0 (summaryKey 100)).1 = none ∧
    (fetchHistoricalSummary 100 false (fun _ => none) 0 true (.ok emptyData)).result
      = .ok emptyData ∧
    (fetchHistoricalSummary 100 false (fun _ => none) 0 true (.ok emptyData)).store
        (summaryKey 100) = some (StoredValue.valid emptyData 0) ∧
    0 < totalRuns sampleData :=
  have h2 := (C10_thm emptyEntryStore 0 0 100 emptyData emptyData).2.1 rfl (by decide) (by decide)
  have h3 := (C10_thm (fun _ => none) 0 0 100 emptyData emptyData).2.2 rfl (by decide)
  have h1 := (C10_thm storeWithSample 0 0 1 sampleData sampleData).1 sampleData rfl
  ⟨rfl, by decide, h2.1, h3.1, h3.2, h1⟩
